import Mathlib

/-!
Verification development for the Family-Budget-Tool ledger engine
(`src/unnamed/part_000`, local-storage mode).

Modelling conventions:
* JS numbers carrying money are modelled as rationals (`ℚ`); the pervasive
  `+(x).toFixed(2)` is modelled by `round2` (round half towards +∞, which is
  what `toFixed` does at a tie).
* Opaque string ids produced by `mkId()` are modelled as naturals handed out
  by an increasing counter (`execOp` threads the counter), which captures the
  freshness of `crypto.randomUUID()`.
* ISO date strings are modelled as structured `(year, month, day)` values and
  the runtime is taken to be UTC, so that `new Date(iso).getDate()` reads the
  day field and `toISOString().slice(0,10)` renders the fields back.
  String comparison of zero-padded `YYYY-MM` keys is lexicographic order on
  `(year, month)`.
* Optional string fields (`notes`, `source`…) are modelled as `String` with
  `""` for the absent value: every use in the source goes through `||` or a
  truthiness test, which identifies `undefined` and `""`.
-/

namespace Budget

/- Batteries marks the rational operations irreducible, which blocks `decide`
on concrete ledger computations; re-open them for this development. -/
attribute [local semireducible] Rat.add Rat.mul Rat.sub Rat.inv

abbrev Money := ℚ

/-- `+(x).toFixed(2)`: round to 2 fraction digits, half towards the larger value. -/
def round2 (x : Money) : Money := ((round (x * 100) : ℤ) : ℚ) / 100

/-- `x` is an exact 2-decimal value (the well-formedness condition of the
data model, which keeps all monetary amounts at 2 fraction digits). -/
def TwoDp (x : Money) : Prop := ∃ n : ℤ, x = (n : ℚ) / 100

abbrev Id := ℕ

/-- A calendar date `YYYY-MM-DD`. -/
structure SDate where
  y : ℕ
  m : ℕ
  d : ℕ
deriving DecidableEq, Repr

/-- `ymKey`: the `YYYY-MM` prefix of an ISO date, as a (year, month) pair. -/
abbrev YM := ℕ × ℕ

def ymKey (dt : SDate) : YM := (dt.y, dt.m)

/-- JS string `<` on zero-padded `YYYY-MM` keys (lexicographic). -/
def ymLt (a b : YM) : Bool := a.1 < b.1 || (a.1 == b.1 && a.2 < b.2)

/-- JS string `<=` on zero-padded `YYYY-MM` keys (lexicographic). -/
def ymLe (a b : YM) : Bool := a.1 < b.1 || (a.1 == b.1 && a.2 ≤ b.2)

/-- `monthsDiff`: `(yb - ya) * 12 + (mb - ma)`. -/
def monthsDiff (a b : YM) : ℤ := ((b.1 : ℤ) - (a.1 : ℤ)) * 12 + ((b.2 : ℤ) - (a.2 : ℤ))

/-- JS `s || dflt` for strings (empty string is falsy). -/
def strOr (s dflt : String) : String := if s = "" then dflt else s

structure Income where
  id : Id
  date : SDate
  source : String
  amount : Money
  accountId : Id
  notes : String
deriving DecidableEq, Repr

inductive RecurrencePeriod
  | monthly
  | quarterly
  | annually
deriving DecidableEq, Repr

structure Recurrence where
  enabled : Bool
  period : RecurrencePeriod
  start : SDate
  endDate : Option SDate
deriving DecidableEq, Repr

structure Expense where
  id : Id
  date : SDate
  category : String
  amount : Money
  isRecurring : Bool
  recurrence : Option Recurrence
  accountId : Id
  notes : String
deriving DecidableEq, Repr

structure Account where
  id : Id
  name : String
  accType : String
  balance : Money
  currency : String
deriving DecidableEq, Repr

structure Transfer where
  id : Id
  date : SDate
  fromAccountId : Id
  toAccountId : Id
  amount : Money
  notes : String
deriving DecidableEq, Repr

inductive TxnType
  | Deposit
  | Withdrawal
deriving DecidableEq, Repr

inductive LinkedType
  | Income
  | Expense
  | Transfer
deriving DecidableEq, Repr

structure AccountTxn where
  id : Id
  date : SDate
  accountId : Id
  txnType : TxnType
  amount : Money
  linkedType : LinkedType
  linkedId : Id
  notes : String
  transferFromId : Option Id
  transferToId : Option Id
deriving DecidableEq, Repr

structure Project where
  id : Id
  name : String
  targetAmount : Money
  targetDate : SDate
  notes : String
deriving DecidableEq, Repr

structure ProjectContribution where
  id : Id
  projectId : Id
  date : SDate
  amount : Money
deriving DecidableEq, Repr

structure Investment where
  id : Id
  date : SDate
  instrument : String
  amount : Money
  accountId : Option Id
  notes : String
deriving DecidableEq, Repr

structure Store where
  currency : String
  incomes : List Income
  expenses : List Expense
  accounts : List Account
  transfers : List Transfer
  accountTxns : List AccountTxn
  projects : List Project
  projectContribs : List ProjectContribution
  investments : List Investment
deriving DecidableEq, Repr

/-- `emptyStore`: one seed `Cash` wallet (its `mkId()` is the id `0`; the
counter handed to `execOp` therefore starts at `1`). -/
def emptyStore : Store :=
  { currency := "USD"
    incomes := []
    expenses := []
    accounts := [{ id := 0, name := "Cash", accType := "Wallet", balance := 0, currency := "USD" }]
    transfers := []
    accountTxns := []
    projects := []
    projectContribs := []
    investments := [] }

/-- Balance delta application: `accounts.map(a => a.id === accountId ? {...a,
balance: +(a.balance + delta).toFixed(2)} : a)`. -/
def adjust (accounts : List Account) (accountId : Id) (delta : Money) : List Account :=
  accounts.map fun a =>
    if a.id = accountId then { a with balance := round2 (a.balance + delta) } else a

/-- Balance of the account `aid` as displayed (first account with that id). -/
def acctBalance (s : Store) (aid : Id) : Money :=
  ((s.accounts.find? fun a => a.id == aid).map Account.balance).getD 0

/- ===========================
   Income / Expense CRUD (local mode)
=========================== -/

/-- `addIncome` (local branch).  `newId` is the `mkId()` for the record and
`txnId` the one for the journal entry; the `id` field of `inc` is ignored,
mirroring `Omit<Income,"id">`. -/
def addIncome (s : Store) (newId txnId : Id) (inc : Income) : Store :=
  let income : Income := { inc with id := newId }
  let accounts := adjust s.accounts inc.accountId inc.amount
  let entry : AccountTxn :=
    { id := txnId, date := inc.date, accountId := inc.accountId, txnType := .Deposit
      amount := inc.amount, linkedType := .Income, linkedId := newId
      notes := strOr inc.source "Income", transferFromId := none, transferToId := none }
  { s with incomes := income :: s.incomes, accounts, accountTxns := entry :: s.accountTxns }

/-- `delIncome` (local branch). -/
def delIncome (s : Store) (i : Id) : Store :=
  match s.incomes.find? (fun inc => inc.id == i) with
  | none => s
  | some income =>
    let accounts := adjust s.accounts income.accountId (-income.amount)
    let accountTxns := s.accountTxns.filter fun t =>
      !(t.linkedType == LinkedType.Income && t.linkedId == i)
    let incomes := s.incomes.filter fun inc => inc.id != i
    { s with accounts, accountTxns, incomes }

/-- `addExpense` (local branch). -/
def addExpense (s : Store) (newId txnId : Id) (exp : Expense) : Store :=
  let expense : Expense := { exp with id := newId }
  let accounts := adjust s.accounts exp.accountId (-exp.amount)
  let entry : AccountTxn :=
    { id := txnId, date := exp.date, accountId := exp.accountId, txnType := .Withdrawal
      amount := exp.amount, linkedType := .Expense, linkedId := newId
      notes := strOr exp.category "Expense", transferFromId := none, transferToId := none }
  { s with expenses := expense :: s.expenses, accounts, accountTxns := entry :: s.accountTxns }

/-- `delExpense` (local branch). -/
def delExpense (s : Store) (i : Id) : Store :=
  match s.expenses.find? (fun e => e.id == i) with
  | none => s
  | some expense =>
    let accounts := adjust s.accounts expense.accountId expense.amount
    let accountTxns := s.accountTxns.filter fun t =>
      !(t.linkedType == LinkedType.Expense && t.linkedId == i)
    let expenses := s.expenses.filter fun e => e.id != i
    { s with accounts, accountTxns, expenses }

/-- `updateIncome` (local branch). -/
def updateIncome (s : Store) (edited : Income) : Store :=
  match s.incomes.find? (fun i => i.id == edited.id) with
  | none => s
  | some original =>
    let accounts :=
      if original.accountId ≠ edited.accountId then
        adjust (adjust s.accounts original.accountId (-original.amount))
          edited.accountId edited.amount
      else
        adjust s.accounts edited.accountId (edited.amount - original.amount)
    let incomes := s.incomes.map fun i => if i.id = edited.id then edited else i
    let accountTxns := s.accountTxns.map fun t =>
      if t.linkedType == LinkedType.Income && t.linkedId == edited.id then
        { t with date := edited.date, accountId := edited.accountId, amount := edited.amount
                 notes := strOr edited.source t.notes }
      else t
    { s with accounts, incomes, accountTxns }

/-- `updateExpense` (local branch). -/
def updateExpense (s : Store) (edited : Expense) : Store :=
  match s.expenses.find? (fun e => e.id == edited.id) with
  | none => s
  | some original =>
    let accounts :=
      if original.accountId ≠ edited.accountId then
        adjust (adjust s.accounts original.accountId original.amount)
          edited.accountId (-edited.amount)
      else
        adjust s.accounts edited.accountId (-(edited.amount - original.amount))
    let expenses := s.expenses.map fun e => if e.id = edited.id then edited else e
    let accountTxns := s.accountTxns.map fun t =>
      if t.linkedType == LinkedType.Expense && t.linkedId == edited.id then
        { t with date := edited.date, accountId := edited.accountId, amount := edited.amount
                 notes := strOr edited.category t.notes }
      else t
    { s with accounts, expenses, accountTxns }

/- ===========================
   Investments CRUD (local mode)
=========================== -/

/-- `addInvestment` (local branch): affects the account only when an
`accountId` is given; `delta = amount > 0 ? -|amount| : |amount|`. -/
def addInvestment (s : Store) (newId : Id) (v : Investment) : Store :=
  let inv : Investment := { v with id := newId }
  let accounts :=
    match inv.accountId with
    | some aid => adjust s.accounts aid (if inv.amount > 0 then -|inv.amount| else |inv.amount|)
    | none => s.accounts
  { s with investments := inv :: s.investments, accounts }

/-- `delInvestment` (local branch): `delta = amount > 0 ? +amount : -amount`
(the source's "revert balance effect" step, reproduced verbatim). -/
def delInvestment (s : Store) (i : Id) : Store :=
  match s.investments.find? (fun x => x.id == i) with
  | none => s
  | some v =>
    let accounts :=
      match v.accountId with
      | some aid => adjust s.accounts aid (if v.amount > 0 then v.amount else -v.amount)
      | none => s.accounts
    { s with accounts, investments := s.investments.filter fun x => x.id != i }

/- ===========================
   Transfers CRUD + Edit (local mode)
=========================== -/

/-- `addTransfer` (local branch): rejected outright when the endpoints
coincide or the amount is non-positive.  `newId` is the transfer's `mkId()`,
`txnIdW`/`txnIdD` the ids of the two journal entries. -/
def addTransfer (s : Store) (newId txnIdW txnIdD : Id) (tr : Transfer) : Store :=
  if tr.fromAccountId = tr.toAccountId ∨ tr.amount ≤ 0 then s else
  let transfer : Transfer := { tr with id := newId }
  let accounts := adjust (adjust s.accounts tr.fromAccountId (-tr.amount)) tr.toAccountId tr.amount
  let fromName :=
    strOr (((s.accounts.find? fun a => a.id == tr.fromAccountId).map Account.name).getD "") "From"
  let toName :=
    strOr (((s.accounts.find? fun a => a.id == tr.toAccountId).map Account.name).getD "") "To"
  let wEntry : AccountTxn :=
    { id := txnIdW, date := tr.date, accountId := tr.fromAccountId, txnType := .Withdrawal
      amount := tr.amount, linkedType := .Transfer, linkedId := newId
      notes := strOr tr.notes ("Transfer to " ++ toName)
      transferFromId := some tr.fromAccountId, transferToId := some tr.toAccountId }
  let dEntry : AccountTxn :=
    { id := txnIdD, date := tr.date, accountId := tr.toAccountId, txnType := .Deposit
      amount := tr.amount, linkedType := .Transfer, linkedId := newId
      notes := strOr tr.notes ("Transfer from " ++ fromName)
      transferFromId := some tr.fromAccountId, transferToId := some tr.toAccountId }
  { s with transfers := transfer :: s.transfers, accounts
           accountTxns := wEntry :: dEntry :: s.accountTxns }

/-- `delTransfer` (local branch). -/
def delTransfer (s : Store) (i : Id) : Store :=
  match s.transfers.find? (fun t => t.id == i) with
  | none => s
  | some tr =>
    let accounts := adjust (adjust s.accounts tr.fromAccountId tr.amount) tr.toAccountId (-tr.amount)
    let accountTxns := s.accountTxns.filter fun t =>
      !(t.linkedType == LinkedType.Transfer && t.linkedId == i)
    let transfers := s.transfers.filter fun t => t.id != i
    { s with accounts, accountTxns, transfers }

/-- `updateTransfer` (local branch).  Note: unlike `addTransfer` there is no
validity check on `edited`. -/
def updateTransfer (s : Store) (edited : Transfer) : Store :=
  match s.transfers.find? (fun t => t.id == edited.id) with
  | none => s
  | some original =>
    let accounts :=
      adjust (adjust (adjust (adjust s.accounts
        original.fromAccountId original.amount)
        original.toAccountId (-original.amount))
        edited.fromAccountId (-edited.amount))
        edited.toAccountId edited.amount
    let transfers := s.transfers.map fun t => if t.id = edited.id then edited else t
    let fromName :=
      strOr (((s.accounts.find? fun a => a.id == edited.fromAccountId).map Account.name).getD "") "From"
    let toName :=
      strOr (((s.accounts.find? fun a => a.id == edited.toAccountId).map Account.name).getD "") "To"
    let accountTxns := s.accountTxns.map fun t =>
      if t.linkedType == LinkedType.Transfer && t.linkedId == edited.id then
        { t with date := edited.date
                 accountId := if t.txnType == TxnType.Withdrawal then edited.fromAccountId
                              else edited.toAccountId
                 amount := edited.amount
                 notes := strOr edited.notes
                   (if t.txnType == TxnType.Withdrawal then "Transfer to " ++ toName
                    else "Transfer from " ++ fromName)
                 transferFromId := some edited.fromAccountId
                 transferToId := some edited.toAccountId }
      else t
    { s with accounts, transfers, accountTxns }

/-- `addAccount` (local branch): appends at the end. -/
def addAccount (s : Store) (newId : Id) (acc : Account) : Store :=
  { s with accounts := s.accounts ++ [{ acc with id := newId }] }

/-- `delAccount`. -/
def delAccount (s : Store) (i : Id) : Store :=
  { s with accounts := s.accounts.filter fun a => a.id != i }

/- ===========================
   Recurrence projector
=========================== -/

/-- `inRangeMonth(ym, startISO, endISO?)`. -/
def inRangeMonth (ym : YM) (startD : SDate) (endD : Option SDate) : Bool :=
  match endD with
  | some ed => if ymLt (ymKey ed) ym then false else ymLe (ymKey startD) ym
  | none => ymLe (ymKey startD) ym

/-- The recurrence anchor: `r?.start || exp.date`. -/
def anchorOf (e : Expense) : SDate := (e.recurrence.map Recurrence.start).getD e.date

/-- The effective period: `r?.period || "monthly"`. -/
def effectivePeriod (e : Expense) : RecurrencePeriod :=
  (e.recurrence.map Recurrence.period).getD .monthly

/-- `recurrenceOccursThisMonth`. -/
def recurrenceOccursThisMonth (e : Expense) (ym : YM) : Bool :=
  let enabled := ((e.recurrence.map Recurrence.enabled).getD false) || e.isRecurring
  if !enabled then false
  else if !inRangeMonth ym (anchorOf e) (e.recurrence.bind Recurrence.endDate) then false
  else
    let diff := monthsDiff (ymKey (anchorOf e)) ym
    if diff < 0 then false
    else
      match effectivePeriod e with
      | .monthly => true
      | .quarterly => diff % 3 == 0
      | .annually => diff % 12 == 0

/-- The date of a projected row: `new Date(firstOfMonth.y, firstOfMonth.m,
min(28, new Date(e.date).getDate() || 1))` rendered back as an ISO date
(UTC runtime; `getDate()` of a parsed date-only string is its day field,
`0` standing for the invalid-date fallback). -/
def projDate (ym : YM) (e : Expense) : SDate :=
  ⟨ym.1, ym.2, min 28 (if e.date.d = 0 then 1 else e.date.d)⟩

/-- The synthetic projected row for `e` in month `ym`; the string id
`` `${e.id}__proj__${month}` `` is modelled by an injective pairing on
`(e.id, ym)`, disjoint from real ids only in its role as a display key. -/
def projectedRow (ym : YM) (e : Expense) : Expense :=
  { e with id := Nat.pair e.id (Nat.pair ym.1 ym.2)
           date := projDate ym e
           notes := (if e.notes = "" then "" else e.notes ++ " • ") ++ "(Projected)" }

/-- Real expense rows of the month. -/
def monthExpensesReal (expenses : List Expense) (ym : YM) : List Expense :=
  expenses.filter fun e => ymKey e.date == ym

/-- `monthExpensesProjectedOnly`: the push-inside-forEach loop is rendered as
filter-then-map (push happens exactly when the recurrence occurs and the
expense is not itself dated this month), followed by the
category/amount/account signature de-duplication against the real rows. -/
def monthExpensesProjectedOnly (expenses : List Expense) (ym : YM) : List Expense :=
  let projected :=
    (expenses.filter fun e =>
      recurrenceOccursThisMonth e ym && ymKey e.date != ym).map (projectedRow ym)
  let realSig := (monthExpensesReal expenses ym).map fun r => (r.category, r.amount, r.accountId)
  projected.filter fun p => !realSig.contains (p.category, p.amount, p.accountId)

/- ===========================
   Goals math
=========================== -/

/-- Days from the Unix epoch of a Gregorian date (the standard civil-days
computation; year ≥ 1 in all uses here, so truncating division is safe). -/
def epochDays (dt : SDate) : ℤ :=
  let y : ℤ := if dt.m ≤ 2 then (dt.y : ℤ) - 1 else (dt.y : ℤ)
  let era : ℤ := y / 400
  let yoe : ℤ := y - era * 400
  let mp : ℤ := ((dt.m : ℤ) + 9) % 12
  let doy : ℤ := (153 * mp + 2) / 5 + (dt.d : ℤ) - 1
  let doe : ℤ := yoe * 365 + yoe / 4 - yoe / 100 + doy
  era * 146097 + doe - 719468

/-- `new Date(iso).getTime()` for a date-only ISO string: UTC midnight, in
milliseconds. -/
def getTime (dt : SDate) : ℚ := (epochDays dt : ℚ) * 86400000

structure ProjectStat where
  project : Project
  contributed : Money
  remaining : Money
  monthsLeft : ℤ
  requiredMonthly : Money
deriving DecidableEq, Repr

/-- `projectStats` (the goals-math view); `nowMs` is `new Date().getTime()`. -/
def projectStats (nowMs : ℚ) (s : Store) : List ProjectStat :=
  s.projects.map fun p =>
    let contributed :=
      ((s.projectContribs.filter fun c => c.projectId == p.id).map ProjectContribution.amount).sum
    let remaining := max 0 (p.targetAmount - contributed)
    let monthsLeft : ℤ :=
      max 1 ⌈(getTime p.targetDate - nowMs) / (1000 * 60 * 60 * 24 * (304 / 10 : ℚ))⌉
    let requiredMonthly := round2 (remaining / (monthsLeft : ℚ))
    { project := p, contributed := contributed, remaining := remaining
      monthsLeft := monthsLeft, requiredMonthly := requiredMonthly }

/-- The same statistics written exactly as the spec phrases them:
`monthsLeft = max(1, ceil(days until target / 30.4))` with
`days until target = (target − now) in days`. -/
def projectStatsSpec (nowMs : ℚ) (s : Store) : List ProjectStat :=
  s.projects.map fun p =>
    let contributed :=
      ((s.projectContribs.filter fun c => c.projectId == p.id).map ProjectContribution.amount).sum
    let remaining := max 0 (p.targetAmount - contributed)
    let daysUntil : ℚ := (getTime p.targetDate - nowMs) / 86400000
    let monthsLeft : ℤ := max 1 ⌈daysUntil / (304 / 10 : ℚ)⌉
    let requiredMonthly := round2 (remaining / (monthsLeft : ℚ))
    { project := p, contributed := contributed, remaining := remaining
      monthsLeft := monthsLeft, requiredMonthly := requiredMonthly }

/- ===========================
   Derived balances (hydrate, "derive balances from activity")
=========================== -/

/-- The signed activity of account `aid` accumulated by the
derive-balances-from-activity recomputation (sum of incomes `+`, expenses
`−`, transfers `− from` / `+ to`, account-linked investments sign-flipped). -/
def rawActivity (s : Store) (aid : Id) : Money :=
  ((s.incomes.filter fun i => i.accountId == aid).map Income.amount).sum
    - ((s.expenses.filter fun e => e.accountId == aid).map Expense.amount).sum
    + ((s.transfers.filter fun t => t.toAccountId == aid).map Transfer.amount).sum
    - ((s.transfers.filter fun t => t.fromAccountId == aid).map Transfer.amount).sum
    + ((s.investments.filter fun v => v.accountId == some aid).map fun v =>
        if v.amount > 0 then -|v.amount| else |v.amount|).sum

/-- The recomputed-from-scratch balance: `+(map.get(a.id) || 0).toFixed(2)`. -/
def derivedBalance (s : Store) (aid : Id) : Money := round2 (rawActivity s aid)

/- ===========================
   Operation language (the store mutators a UI action can invoke on the
   income / expense / transfer collections) and `mkId()` threading
=========================== -/

inductive Op
  | addIncome (inc : Income)
  | updateIncome (edited : Income)
  | delIncome (i : Id)
  | addExpense (exp : Expense)
  | updateExpense (edited : Expense)
  | delExpense (i : Id)
  | addTransfer (tr : Transfer)
  | updateTransfer (edited : Transfer)
  | delTransfer (i : Id)
deriving DecidableEq, Repr

/-- One mutator call; the counter component hands out the `mkId()` values in
source call order. -/
def execOp : Store × ℕ → Op → Store × ℕ
  | (s, n), .addIncome inc => (addIncome s n (n + 1) inc, n + 2)
  | (s, n), .updateIncome e => (updateIncome s e, n)
  | (s, n), .delIncome i => (delIncome s i, n)
  | (s, n), .addExpense exp => (addExpense s n (n + 1) exp, n + 2)
  | (s, n), .updateExpense e => (updateExpense s e, n)
  | (s, n), .delExpense i => (delExpense s i, n)
  | (s, n), .addTransfer tr => (addTransfer s n (n + 1) (n + 2) tr, n + 3)
  | (s, n), .updateTransfer e => (updateTransfer s e, n)
  | (s, n), .delTransfer i => (delTransfer s i, n)

/-- A whole history, run from the empty store. -/
def execOps (ops : List Op) : Store × ℕ := ops.foldl execOp (emptyStore, 1)

/-- Replaying the surviving income/expense/transfer records through the add
mutators from the empty store, each record keeping its own id (entry ids are
irrelevant to the journal comparison and are passed as `0`). -/
def replay (s : Store) : Store :=
  let s1 := s.incomes.foldr (fun i acc => addIncome acc i.id 0 i) emptyStore
  let s2 := s.expenses.foldr (fun e acc => addExpense acc e.id 0 e) s1
  s.transfers.foldr (fun t acc => addTransfer acc t.id 0 0 t) s2

/- ===========================
   Journal entry views for the derivability invariant
=========================== -/

/-- A journal entry with the entry id forgotten (the claim's comparison "as a
set ignoring entry ids"). -/
structure JEntryN where
  date : SDate
  accountId : Id
  txnType : TxnType
  amount : Money
  linkedType : LinkedType
  linkedId : Id
  notes : String
  transferFromId : Option Id
  transferToId : Option Id
deriving DecidableEq, Repr

def stripId (t : AccountTxn) : JEntryN :=
  ⟨t.date, t.accountId, t.txnType, t.amount, t.linkedType, t.linkedId, t.notes,
    t.transferFromId, t.transferToId⟩

/-- A journal entry with the entry id and the display notes forgotten. -/
structure JEntry where
  date : SDate
  accountId : Id
  txnType : TxnType
  amount : Money
  linkedType : LinkedType
  linkedId : Id
  transferFromId : Option Id
  transferToId : Option Id
deriving DecidableEq, Repr

def strip (t : AccountTxn) : JEntry :=
  ⟨t.date, t.accountId, t.txnType, t.amount, t.linkedType, t.linkedId,
    t.transferFromId, t.transferToId⟩

/-- The (id- and notes-less) journal entry an income record gives rise to. -/
def incomeJ (i : Income) : JEntry :=
  ⟨i.date, i.accountId, .Deposit, i.amount, .Income, i.id, none, none⟩

def expenseJ (e : Expense) : JEntry :=
  ⟨e.date, e.accountId, .Withdrawal, e.amount, .Expense, e.id, none, none⟩

def transferWJ (t : Transfer) : JEntry :=
  ⟨t.date, t.fromAccountId, .Withdrawal, t.amount, .Transfer, t.id,
    some t.fromAccountId, some t.toAccountId⟩

def transferDJ (t : Transfer) : JEntry :=
  ⟨t.date, t.toAccountId, .Deposit, t.amount, .Transfer, t.id,
    some t.fromAccountId, some t.toAccountId⟩

/-- Both entries of each transfer, in order. -/
def transfersJ : List Transfer → List JEntry
  | [] => []
  | t :: ts => transferWJ t :: transferDJ t :: transfersJ ts

/-- The journal fully derived from the source records. -/
def journalSpec (s : Store) : List JEntry :=
  s.incomes.map incomeJ ++ s.expenses.map expenseJ ++ transfersJ s.transfers

/-- Validity of a history: `updateTransfer` is only fed transfers that
satisfy the transfer invariant (the add path enforces it by itself). -/
def validOp : Op → Prop
  | .updateTransfer t => t.fromAccountId ≠ t.toAccountId ∧ 0 < t.amount
  | _ => True

/-- Every stored transfer satisfies the transfer invariant. -/
def transfersOk (s : Store) : Prop :=
  ∀ t ∈ s.transfers, t.fromAccountId ≠ t.toAccountId ∧ 0 < t.amount

/-- What `updateIncome` does to a (stripped) journal entry. -/
def gIncome (edited : Income) : JEntry → JEntry := fun j =>
  if j.linkedType == LinkedType.Income && j.linkedId == edited.id then
    { j with date := edited.date, accountId := edited.accountId, amount := edited.amount }
  else j

/-- What `updateExpense` does to a (stripped) journal entry. -/
def gExpense (edited : Expense) : JEntry → JEntry := fun j =>
  if j.linkedType == LinkedType.Expense && j.linkedId == edited.id then
    { j with date := edited.date, accountId := edited.accountId, amount := edited.amount }
  else j

/-- What `updateTransfer` does to a (stripped) journal entry. -/
def gTransfer (edited : Transfer) : JEntry → JEntry := fun j =>
  if j.linkedType == LinkedType.Transfer && j.linkedId == edited.id then
    { j with date := edited.date
             accountId := if j.txnType == TxnType.Withdrawal then edited.fromAccountId
                          else edited.toAccountId
             amount := edited.amount
             transferFromId := some edited.fromAccountId
             transferToId := some edited.toAccountId }
  else j

/-- The journal always matches the derivation from the records, up to entry
ids, notes and order. -/
def JInv (s : Store) : Prop := (s.accountTxns.map strip).Perm (journalSpec s)

/- ===========================
   Concrete fixtures used by the claim witnesses and counterexamples
=========================== -/

/-- A store holding two accounts and one settled transfer between them,
used to exercise `updateTransfer` on invalid input. -/
def storeC3 : Store :=
  { currency := "USD", incomes := [], expenses := []
    accounts := [⟨1, "A", "Bank", 50, "USD"⟩, ⟨2, "B", "Bank", 150, "USD"⟩]
    transfers := [⟨7, ⟨2024, 1, 2⟩, 1, 2, 50, ""⟩]
    accountTxns := [], projects := [], projectContribs := [], investments := [] }

/-- Add then delete a negative-amount (withdrawal) investment on the Cash
account. -/
def storeC5 : Store :=
  delInvestment
    (addInvestment emptyStore 1
      { id := 0, date := ⟨2024, 1, 2⟩, instrument := "MMF", amount := -10
        accountId := some 0, notes := "" }) 1

/-- The spec scenario's recurring Rent expense. -/
def rentExp : Expense :=
  { id := 1, date := ⟨2024, 1, 5⟩, category := "Rent", amount := 500, isRecurring := false
    recurrence := some { enabled := true, period := .monthly, start := ⟨2024, 1, 5⟩, endDate := none }
    accountId := 0, notes := "" }

/-- A recurring expense whose own recorded day (20) differs from its
recurrence anchor day (5). -/
def badAnchorExp : Expense :=
  { id := 1, date := ⟨2024, 1, 20⟩, category := "Rent", amount := 500, isRecurring := false
    recurrence := some { enabled := true, period := .monthly, start := ⟨2024, 1, 5⟩, endDate := none }
    accountId := 0, notes := "" }

/-- The spec scenario's quarterly expense, anchored 2024-01. -/
def qExp : Expense :=
  { id := 1, date := ⟨2024, 1, 5⟩, category := "Rent", amount := 500, isRecurring := false
    recurrence := some { enabled := true, period := .quarterly, start := ⟨2024, 1, 5⟩, endDate := none }
    accountId := 0, notes := "" }

/-- Two-account store exercising a concrete valid transfer. -/
def storeC2 : Store :=
  { currency := "USD", incomes := [], expenses := []
    accounts := [⟨1, "A", "Bank", 100, "USD"⟩, ⟨2, "B", "Bank", 100, "USD"⟩]
    transfers := [], accountTxns := [], projects := [], projectContribs := [], investments := [] }

def trC2 : Transfer := ⟨0, ⟨2024, 1, 2⟩, 1, 2, 50, ""⟩

/-- Concrete stores for the C4 witness. -/
def s4I : Store := { emptyStore with incomes := [⟨1, ⟨2024, 1, 2⟩, "Job", 100, 0, ""⟩] }

def s4E : Store :=
  { emptyStore with expenses := [⟨2, ⟨2024, 1, 2⟩, "Food", 40, false, none, 0, ""⟩] }

def s4T : Store :=
  { currency := "USD", incomes := [], expenses := []
    accounts := [⟨1, "A", "Bank", 100, "USD"⟩, ⟨2, "B", "Bank", 100, "USD"⟩]
    transfers := [⟨3, ⟨2024, 1, 2⟩, 1, 2, 50, ""⟩]
    accountTxns := [], projects := [], projectContribs := [], investments := [] }

/-- The history of the C1 counterexample: record an income with source
"Salary", then edit it to an empty source. -/
def opsC1 : List Op :=
  [Op.addIncome ⟨0, ⟨2024, 1, 5⟩, "Salary", 100, 0, ""⟩,
   Op.updateIncome ⟨1, ⟨2024, 1, 5⟩, "", 100, 0, ""⟩]

/- ===========================
   Arithmetic toolkit for `round2`
=========================== -/

theorem round2_twoDp {x : Money} (h : TwoDp x) : round2 x = x := by
  obtain ⟨n, rfl⟩ := h
  have h100 : ((n : ℚ) / 100) * 100 = (n : ℚ) := by field_simp
  rw [round2, h100, round_intCast]

theorem twoDp_round2 (x : Money) : TwoDp (round2 x) := ⟨round (x * 100), rfl⟩

theorem twoDp_add {x y : Money} (hx : TwoDp x) (hy : TwoDp y) : TwoDp (x + y) := by
  obtain ⟨n, rfl⟩ := hx
  obtain ⟨m, rfl⟩ := hy
  exact ⟨n + m, by push_cast; ring⟩

theorem twoDp_neg {x : Money} (hx : TwoDp x) : TwoDp (-x) := by
  obtain ⟨n, rfl⟩ := hx
  exact ⟨-n, by push_cast; ring⟩

theorem twoDp_sub {x y : Money} (hx : TwoDp x) (hy : TwoDp y) : TwoDp (x - y) := by
  rw [sub_eq_add_neg]; exact twoDp_add hx (twoDp_neg hy)

theorem twoDp_zero : TwoDp 0 := ⟨0, by norm_num⟩

/-- Adding an exact 2-decimal value commutes with `round2`. -/
theorem round2_add_twoDp (x : Money) {g : Money} (hg : TwoDp g) :
    round2 (x + g) = round2 x + g := by
  obtain ⟨n, rfl⟩ := hg
  have h1 : (x + (n : ℚ) / 100) * 100 = x * 100 + (n : ℚ) := by field_simp
  rw [round2, h1, round_add_int, round2]
  push_cast
  ring

theorem round2_round2 (x : Money) : round2 (round2 x) = round2 x :=
  round2_twoDp (twoDp_round2 x)

/- ===========================
   List toolkit
=========================== -/

theorem find?_filter_out {α : Type} (l : List α) (key : α → Id) (i : Id) :
    (l.filter fun x => key x != i).find? (fun x => key x == i) = none := by
  rw [List.find?_eq_none]
  intro x hx
  simpa using (List.mem_filter.mp hx).2

theorem find?_none_of_ne {α : Type} (l : List α) (key : α → Id) (i : Id)
    (h : ∀ x ∈ l, key x ≠ i) : l.find? (fun x => key x == i) = none := by
  rw [List.find?_eq_none]
  intro x hx
  simpa using h x hx

theorem filterMapComm {α β : Type} (f : α → β) (p : β → Bool) (l : List α) :
    (l.map f).filter p = (l.filter fun a => p (f a)).map f := by
  induction l with
  | nil => rfl
  | cons a t ih =>
    simp only [List.map_cons, List.filter_cons]
    cases h : p (f a) <;> simp [h, ih]

theorem map_eq_self_of {α : Type} (l : List α) (g : α → α) (h : ∀ a ∈ l, g a = a) :
    l.map g = l := by
  induction l with
  | nil => rfl
  | cons a t ih =>
    rw [List.map_cons, h a (List.mem_cons_self a t),
      ih fun x hx => h x (List.mem_cons_of_mem a hx)]

theorem perm_two_middle {α : Type} (a b : α) (l₁ l₂ : List α) :
    (a :: b :: (l₁ ++ l₂)).Perm (l₁ ++ a :: b :: l₂) := by
  have h1 : (b :: (l₁ ++ l₂)).Perm (l₁ ++ b :: l₂) := List.perm_middle.symm
  have h2 : (a :: (l₁ ++ b :: l₂)).Perm (l₁ ++ a :: b :: l₂) := List.perm_middle.symm
  exact (h1.cons a).trans h2

/-- The compound rounding of delete-then-add collapses onto the single
rounding of an in-place update, given 2-decimal amounts. -/
theorem round2_chain (b : Money) {o e : Money} (ho : TwoDp o) (he : TwoDp e) :
    round2 (round2 (b + o) + e) = round2 (b + (o + e)) := by
  rw [round2_add_twoDp b ho, round2_add_twoDp _ he, round2_add_twoDp _ ho,
    round2_round2, round2_add_twoDp b (twoDp_add ho he)]
  ring

/- ===========================
   C10 — investments never touch the journal (local mode)
=========================== -/

/-- C10: in local mode, `addInvestment` and `delInvestment` leave the journal
(`accountTxns`) unchanged, even when an `accountId` is present and the
balance is adjusted. -/
theorem investment_preserves_journal (s : Store) (newId : Id) (v : Investment) (i : Id) :
    (addInvestment s newId v).accountTxns = s.accountTxns ∧
      (delInvestment s i).accountTxns = s.accountTxns := by
  constructor
  · rfl
  · unfold delInvestment
    cases s.investments.find? (fun x => x.id == i) with
    | none => rfl
    | some v => rfl

/- ===========================
   C3 — transfer validation
=========================== -/

/-- C3 (amended): `addTransfer` with coinciding endpoints or a non-positive
amount performs no state change; `updateTransfer` has no such validation
(see the counterexample). -/
theorem addTransfer_rejects_invalid (s : Store) (newId tW tD : Id) (tr : Transfer)
    (h : tr.fromAccountId = tr.toAccountId ∨ tr.amount ≤ 0) :
    addTransfer s newId tW tD tr = s := by
  unfold addTransfer
  rw [if_pos h]

theorem addTransfer_rejects_invalid_witness :
    ((0 : Id) = 0 ∨ (50 : Money) ≤ 0) ∧
      addTransfer emptyStore 1 2 3
        { id := 0, date := ⟨2024, 1, 2⟩, fromAccountId := 0, toAccountId := 0
          amount := 50, notes := "" } = emptyStore :=
  ⟨Or.inl rfl, addTransfer_rejects_invalid emptyStore 1 2 3 _ (Or.inl rfl)⟩


/-- C3, counterexample: `updateTransfer` with `fromAccountId = toAccountId`
does change the state (balances and the stored transfer), so the claim's
no-op guarantee fails for the update mutator. -/
theorem updateTransfer_no_validation_cex :
    updateTransfer storeC3 ⟨7, ⟨2024, 1, 2⟩, 1, 1, 50, ""⟩ ≠ storeC3 := by decide

/- ===========================
   C5 — derive-balances-from-activity vs incremental deltas
=========================== -/


/-- C5 (code bug): after adding and deleting a `-10` investment linked to the
Cash account, the incrementally maintained balance is `20` (the delete
re-applies `+|amount|` instead of reverting it, contradicting its own
"revert balance effect" comment), while recomputing from activity gives `0`;
the two disagree although the claim requires them equal on this
orphan-free history. -/
theorem investment_delete_breaks_derivation :
    storeC5.investments = [] ∧ acctBalance storeC5 0 = 20 ∧ derivedBalance storeC5 0 = 0 := by
  decide

/- ===========================
   C6 — idempotent / missing-id deletes
=========================== -/

/-- C6: each delete mutator is idempotent, and deleting an id that is not
present leaves the whole store unchanged. -/
theorem delete_idempotent (s : Store) (i : Id) :
    (delIncome (delIncome s i) i = delIncome s i ∧
      delExpense (delExpense s i) i = delExpense s i ∧
      delTransfer (delTransfer s i) i = delTransfer s i ∧
      delInvestment (delInvestment s i) i = delInvestment s i) ∧
    ((∀ x ∈ s.incomes, x.id ≠ i) → delIncome s i = s) ∧
    ((∀ x ∈ s.expenses, x.id ≠ i) → delExpense s i = s) ∧
    ((∀ x ∈ s.transfers, x.id ≠ i) → delTransfer s i = s) ∧
    ((∀ x ∈ s.investments, x.id ≠ i) → delInvestment s i = s) := by
  refine ⟨⟨?_, ?_, ?_, ?_⟩, ?_, ?_, ?_, ?_⟩
  · cases h : s.incomes.find? (fun x => x.id == i) with
    | none => simp only [delIncome, h]
    | some x => simp only [delIncome, h, find?_filter_out s.incomes Income.id i]
  · cases h : s.expenses.find? (fun x => x.id == i) with
    | none => simp only [delExpense, h]
    | some x => simp only [delExpense, h, find?_filter_out s.expenses Expense.id i]
  · cases h : s.transfers.find? (fun x => x.id == i) with
    | none => simp only [delTransfer, h]
    | some x => simp only [delTransfer, h, find?_filter_out s.transfers Transfer.id i]
  · cases h : s.investments.find? (fun x => x.id == i) with
    | none => simp only [delInvestment, h]
    | some x => simp only [delInvestment, h, find?_filter_out s.investments Investment.id i]
  · intro h; simp only [delIncome, find?_none_of_ne s.incomes Income.id i h]
  · intro h; simp only [delExpense, find?_none_of_ne s.expenses Expense.id i h]
  · intro h; simp only [delTransfer, find?_none_of_ne s.transfers Transfer.id i h]
  · intro h; simp only [delInvestment, find?_none_of_ne s.investments Investment.id i h]

theorem delete_idempotent_witness :
    (delIncome (delIncome emptyStore 5) 5 = delIncome emptyStore 5) ∧
      delIncome emptyStore 5 = emptyStore :=
  ⟨(delete_idempotent emptyStore 5).1.1,
    (delete_idempotent emptyStore 5).2.1 (by simp [emptyStore])⟩

/- ===========================
   C7 — recurrence projection
=========================== -/


/-- C7 (amended): the Rent scenario projects exactly one row for 2024-03,
dated 2024-03-05 with amount 500, and no row for 2024-01; in general every
projected row's date is the target month's first day with day-of-month
`min(28, day of the expense's own recorded date)` (the code reads the day
from `e.date`, not from the recurrence anchor). -/
theorem recurrence_projection_scenario :
    ((monthExpensesProjectedOnly [rentExp] (2024, 3)).map (fun p => (p.date, p.amount))
        = [(⟨2024, 3, 5⟩, 500)]
      ∧ monthExpensesProjectedOnly [rentExp] (2024, 1) = [])
    ∧ ∀ (exps : List Expense) (ym : YM) (p : Expense),
        p ∈ monthExpensesProjectedOnly exps ym →
        ∃ e ∈ exps, p.category = e.category ∧ p.amount = e.amount ∧ p.accountId = e.accountId ∧
          p.date = ⟨ym.1, ym.2, min 28 (if e.date.d = 0 then 1 else e.date.d)⟩ := by
  refine ⟨⟨by decide, by decide⟩, ?_⟩
  intro exps ym p hp
  simp only [monthExpensesProjectedOnly] at hp
  obtain ⟨e, he, rfl⟩ := List.mem_map.mp (List.mem_filter.mp hp).1
  exact ⟨e, (List.mem_filter.mp he).1, rfl, rfl, rfl, rfl⟩

theorem recurrence_projection_scenario_witness :
    ∃ e ∈ [rentExp],
      (projectedRow (2024, 3) rentExp).category = e.category ∧
      (projectedRow (2024, 3) rentExp).amount = e.amount ∧
      (projectedRow (2024, 3) rentExp).accountId = e.accountId ∧
      (projectedRow (2024, 3) rentExp).date
        = ⟨2024, 3, min 28 (if e.date.d = 0 then 1 else e.date.d)⟩ :=
  recurrence_projection_scenario.2 [rentExp] (2024, 3) (projectedRow (2024, 3) rentExp)
    (by decide)


/-- C7, counterexample: the projected row for 2024-03 is dated `2024-03-20`
(the expense's own day of month), not the claim's `min(28, anchor day)` =
`2024-03-05`. -/
theorem projection_anchor_day_cex :
    ¬ ∀ p ∈ monthExpensesProjectedOnly [badAnchorExp] (2024, 3),
        p.date = ⟨2024, 3, min 28 (anchorOf badAnchorExp).d⟩ := by decide

/- ===========================
   C8 — occurrence test
=========================== -/

theorem ymLt_eq_false_of_ymLe {a b : YM} (h : ymLe a b = true) : ymLt b a = false := by
  rw [Bool.eq_false_iff]
  intro hlt
  simp only [ymLe, ymLt, Bool.or_eq_true, Bool.and_eq_true, beq_iff_eq,
    decide_eq_true_eq] at h hlt
  omega

theorem monthsDiff_nonneg {a b : YM} (h : ymLe a b = true)
    (ha1 : 1 ≤ a.2) (ha2 : a.2 ≤ 12) (hb1 : 1 ≤ b.2) (hb2 : b.2 ≤ 12) :
    0 ≤ monthsDiff a b := by
  simp only [ymLe, Bool.or_eq_true, Bool.and_eq_true, beq_iff_eq, decide_eq_true_eq] at h
  unfold monthsDiff
  omega


/-- C8: for a recurrence-enabled expense with the target month between the
anchor month and the end month, the occurrence test returns true exactly as
the period prescribes (`monthly` always, `quarterly` on `diff % 3 = 0`,
`annually` on `diff % 12 = 0`); the quarterly example anchored 2024-01
occurs in 2024-01/04/07 and not in 2024-02/03. -/
theorem recurrence_occurs_iff :
    (∀ (e : Expense) (ym : YM),
        (((e.recurrence.map Recurrence.enabled).getD false) || e.isRecurring) = true →
        1 ≤ (anchorOf e).m → (anchorOf e).m ≤ 12 → 1 ≤ ym.2 → ym.2 ≤ 12 →
        ymLe (ymKey (anchorOf e)) ym = true →
        (∀ ed ∈ e.recurrence.bind Recurrence.endDate, ymLe ym (ymKey ed) = true) →
        (recurrenceOccursThisMonth e ym = true ↔
          (effectivePeriod e = .monthly ∨
            (effectivePeriod e = .quarterly ∧ monthsDiff (ymKey (anchorOf e)) ym % 3 = 0) ∨
            (effectivePeriod e = .annually ∧ monthsDiff (ymKey (anchorOf e)) ym % 12 = 0))))
    ∧ (recurrenceOccursThisMonth qExp (2024, 1) = true
        ∧ recurrenceOccursThisMonth qExp (2024, 4) = true
        ∧ recurrenceOccursThisMonth qExp (2024, 7) = true
        ∧ recurrenceOccursThisMonth qExp (2024, 2) = false
        ∧ recurrenceOccursThisMonth qExp (2024, 3) = false) := by
  constructor
  · intro e ym hen h1 h2 h3 h4 hle hend
    have hin : inRangeMonth ym (anchorOf e) (e.recurrence.bind Recurrence.endDate) = true := by
      unfold inRangeMonth
      cases hED : e.recurrence.bind Recurrence.endDate with
      | none => exact hle
      | some ed =>
        have hed := hend ed (by simp [hED])
        simp [ymLt_eq_false_of_ymLe hed, hle]
    have hdiff : ¬ monthsDiff (ymKey (anchorOf e)) ym < 0 :=
      not_lt.mpr (monthsDiff_nonneg hle h1 h2 h3 h4)
    rcases hp : effectivePeriod e with _ | _ | _ <;>
      simp [recurrenceOccursThisMonth, hen, hin, hp, hdiff]
  · refine ⟨by decide, by decide, by decide, by decide, by decide⟩

theorem recurrence_occurs_iff_witness :
    recurrenceOccursThisMonth qExp (2024, 4) = true :=
  (recurrence_occurs_iff.1 qExp (2024, 4) (by decide) (by decide) (by decide) (by decide)
      (by decide) (by decide) (by intro ed h; simp [qExp] at h)).mpr
    (Or.inr (Or.inl ⟨by decide, by decide⟩))

/- ===========================
   C2 — balance effect of a valid transfer
=========================== -/

/-- Looking an account up after `adjust`: the original record, its balance
adjusted when its id matches the adjusted one. -/
theorem find?_adjust (accounts : List Account) (aid bid : Id) (δ : Money) :
    (adjust accounts aid δ).find? (fun a => a.id == bid)
      = (accounts.find? (fun a => a.id == bid)).map
          (fun a => if a.id = aid then { a with balance := round2 (a.balance + δ) } else a) := by
  unfold adjust
  rw [List.find?_map]
  have hp : ((fun a : Account => a.id == bid) ∘
        fun a => if a.id = aid then { a with balance := round2 (a.balance + δ) } else a)
      = fun a : Account => a.id == bid := by
    funext a
    by_cases h : a.id = aid <;> simp [h, Function.comp]
  rw [hp]

theorem adjust_map_id (accounts : List Account) (aid : Id) (δ : Money) :
    (adjust accounts aid δ).map Account.id = accounts.map Account.id := by
  unfold adjust
  rw [List.map_map]
  refine List.map_congr_left fun a _ => ?_
  by_cases h : a.id = aid <;> simp [h, Function.comp]

theorem adjust_of_not_mem (accounts : List Account) (aid : Id) (δ : Money)
    (h : ∀ a ∈ accounts, a.id ≠ aid) : adjust accounts aid δ = accounts := by
  unfold adjust
  have h2 : ∀ a ∈ accounts,
      (if a.id = aid then { a with balance := round2 (a.balance + δ) } else a) = id a :=
    fun a ha => by rw [if_neg (h a ha)]; rfl
  rw [List.map_congr_left h2, List.map_id]

theorem sum_adjust (accounts : List Account) (aid : Id) (δ : Money) (a : Account)
    (hnd : (accounts.map Account.id).Nodup)
    (hfind : accounts.find? (fun x => x.id == aid) = some a) :
    ((adjust accounts aid δ).map Account.balance).sum
      = (accounts.map Account.balance).sum + (round2 (a.balance + δ) - a.balance) := by
  induction accounts with
  | nil => simp at hfind
  | cons b l ih =>
    rw [List.map_cons, List.nodup_cons] at hnd
    obtain ⟨hbl, hndl⟩ := hnd
    by_cases hb : (b.id == aid) = true
    · have hbid : b.id = aid := by simpa using hb
      rcases List.find?_cons_eq_some.mp hfind with ⟨_, hba⟩ | ⟨hnb, _⟩
      · subst hba
        have hnotin : ∀ x ∈ l, x.id ≠ aid := by
          intro x hx hxa
          exact hbl (by rw [hbid, ← hxa]; exact List.mem_map_of_mem Account.id hx)
        have htl : adjust l aid δ = l := adjust_of_not_mem l aid δ hnotin
        unfold adjust
        rw [List.map_cons, if_pos hbid]
        unfold adjust at htl
        rw [htl, List.map_cons, List.sum_cons, List.map_cons, List.sum_cons]
        dsimp only
        ring
      · rw [hb] at hnb
        simp at hnb
    · have hbid : ¬ b.id = aid := by simpa using hb
      rcases List.find?_cons_eq_some.mp hfind with ⟨hpb, _⟩ | ⟨_, htail⟩
      · exact absurd hpb hb
      · have := ih hndl htail
        unfold adjust at this ⊢
        rw [List.map_cons, if_neg hbid, List.map_cons, List.sum_cons, this,
          List.map_cons, List.sum_cons]
        ring

/-- C2: a valid transfer between two distinct existing accounts debits the
source by exactly the amount, credits the destination by exactly the amount,
leaves every other account untouched, and conserves the sum of balances
(2-decimal balances and amount; account ids unique). -/
theorem transfer_balance_effect (s : Store) (newId tW tD : Id) (tr : Transfer)
    (af ad : Account)
    (hne : tr.fromAccountId ≠ tr.toAccountId) (hpos : 0 < tr.amount)
    (hf : s.accounts.find? (fun a => a.id == tr.fromAccountId) = some af)
    (ht : s.accounts.find? (fun a => a.id == tr.toAccountId) = some ad)
    (hnd : (s.accounts.map Account.id).Nodup)
    (hga : TwoDp tr.amount) (hgf : TwoDp af.balance) (hgd : TwoDp ad.balance) :
    acctBalance (addTransfer s newId tW tD tr) tr.fromAccountId
        = acctBalance s tr.fromAccountId - tr.amount
    ∧ acctBalance (addTransfer s newId tW tD tr) tr.toAccountId
        = acctBalance s tr.toAccountId + tr.amount
    ∧ (∀ aid, aid ≠ tr.fromAccountId → aid ≠ tr.toAccountId →
        acctBalance (addTransfer s newId tW tD tr) aid = acctBalance s aid)
    ∧ ((addTransfer s newId tW tD tr).accounts.map Account.balance).sum
        = (s.accounts.map Account.balance).sum := by
  have hcond : ¬(tr.fromAccountId = tr.toAccountId ∨ tr.amount ≤ 0) := by
    push_neg
    exact ⟨hne, hpos⟩
  have hacc : (addTransfer s newId tW tD tr).accounts
      = adjust (adjust s.accounts tr.fromAccountId (-tr.amount)) tr.toAccountId tr.amount := by
    unfold addTransfer
    rw [if_neg hcond]
  have haf : af.id = tr.fromAccountId := by simpa using List.find?_some hf
  have had : ad.id = tr.toAccountId := by simpa using List.find?_some ht
  have hfromRounded : round2 (af.balance + -tr.amount) = af.balance - tr.amount := by
    rw [round2_twoDp (twoDp_add hgf (twoDp_neg hga))]
    ring
  have htoRounded : round2 (ad.balance + tr.amount) = ad.balance + tr.amount :=
    round2_twoDp (twoDp_add hgd hga)
  have e1 : (adjust (adjust s.accounts tr.fromAccountId (-tr.amount))
        tr.toAccountId tr.amount).find? (fun a => a.id == tr.fromAccountId)
      = some { af with balance := round2 (af.balance + -tr.amount) } := by
    rw [find?_adjust, find?_adjust, hf]
    simp [haf, hne]
  have e2 : (adjust (adjust s.accounts tr.fromAccountId (-tr.amount))
        tr.toAccountId tr.amount).find? (fun a => a.id == tr.toAccountId)
      = some { ad with balance := round2 (ad.balance + tr.amount) } := by
    rw [find?_adjust, find?_adjust, ht]
    simp [had, Ne.symm hne]
  refine ⟨?_, ?_, ?_, ?_⟩
  · rw [acctBalance, acctBalance, hacc, e1, hf]
    simpa using hfromRounded
  · rw [acctBalance, acctBalance, hacc, e2, ht]
    simpa using htoRounded
  · intro aid hfa hta
    rw [acctBalance, acctBalance, hacc, find?_adjust, find?_adjust]
    cases ho : s.accounts.find? (fun a => a.id == aid) with
    | none => simp
    | some x =>
      have hx : x.id = aid := by simpa using List.find?_some ho
      simp [hx, hfa, hta]
  · rw [hacc]
    have hndAdj : ((adjust s.accounts tr.fromAccountId (-tr.amount)).map Account.id).Nodup := by
      rw [adjust_map_id]
      exact hnd
    have e4 : (adjust s.accounts tr.fromAccountId (-tr.amount)).find?
        (fun a => a.id == tr.toAccountId) = some ad := by
      rw [find?_adjust, ht]
      simp [had, Ne.symm hne]
    rw [sum_adjust _ _ _ ad hndAdj e4, sum_adjust _ _ _ af hnd hf,
      hfromRounded, htoRounded]
    ring

theorem transfer_balance_effect_witness :
    acctBalance (addTransfer storeC2 9 10 11 trC2) trC2.fromAccountId
        = acctBalance storeC2 trC2.fromAccountId - trC2.amount
    ∧ acctBalance (addTransfer storeC2 9 10 11 trC2) trC2.toAccountId
        = acctBalance storeC2 trC2.toAccountId + trC2.amount
    ∧ (∀ aid, aid ≠ trC2.fromAccountId → aid ≠ trC2.toAccountId →
        acctBalance (addTransfer storeC2 9 10 11 trC2) aid = acctBalance storeC2 aid)
    ∧ ((addTransfer storeC2 9 10 11 trC2).accounts.map Account.balance).sum
        = (storeC2.accounts.map Account.balance).sum :=
  transfer_balance_effect storeC2 9 10 11 trC2
    ⟨1, "A", "Bank", 100, "USD"⟩ ⟨2, "B", "Bank", 100, "USD"⟩
    (by decide) (by norm_num [trC2]) (by decide) (by decide) (by decide)
    ⟨5000, by norm_num [trC2]⟩ ⟨10000, by norm_num⟩ ⟨10000, by norm_num⟩

/- ===========================
   C4 — edit = reverse + apply (balances)
=========================== -/

theorem find?_of_mem_nodup {α : Type} (l : List α) (key : α → Id) (a : α)
    (hnd : (l.map key).Nodup) (ha : a ∈ l) :
    l.find? (fun x => key x == key a) = some a := by
  induction l with
  | nil => cases ha
  | cons b t ih =>
    rw [List.map_cons, List.nodup_cons] at hnd
    obtain ⟨hbt, hndt⟩ := hnd
    rcases List.mem_cons.mp ha with rfl | hat
    · exact List.find?_cons_of_pos t (by simp)
    · have hkey : ¬ ((fun x => key x == key a) b) = true := by
        simp only [beq_iff_eq]
        intro he
        exact hbt (he ▸ List.mem_map_of_mem key hat)
      have hstep : List.find? (fun x => key x == key a) (b :: t)
          = List.find? (fun x => key x == key a) t := List.find?_cons_of_neg t hkey
      rw [hstep]
      exact ih hndt hat

/-- Consecutive adjusts on the same account collapse to one adjust of the
summed delta, for 2-decimal deltas. -/
theorem adjust_adjust_same (accounts : List Account) (aid : Id) {o e : Money}
    (ho : TwoDp o) (he : TwoDp e) :
    adjust (adjust accounts aid o) aid e = adjust accounts aid (o + e) := by
  unfold adjust
  rw [List.map_map]
  refine List.map_congr_left fun a _ => ?_
  simp only [Function.comp_apply]
  by_cases h : a.id = aid
  · rw [if_pos h, if_pos (show ({ a with balance := round2 (a.balance + o) } : Account).id = aid from h),
      if_pos h]
    congr 1
    exact round2_chain a.balance ho he
  · rw [if_neg h, if_neg h, if_neg h]

/-- C4 (amended): for incomes and expenses (2-decimal amounts), and for
transfers whose edited record satisfies the transfer validity invariant,
`update(edited)` yields the same account balances as `delete(original.id)`
followed by `add(edited)` under a fresh id. -/
theorem update_eq_delete_add_balances
    (s1 s2 s3 : Store)
    (origI editedI : Income) (origE editedE : Expense) (origT editedT : Transfer)
    (nI tI nE tE nT tW tD : Id)
    (hI : origI ∈ s1.incomes) (hIid : editedI.id = origI.id)
    (hIn : (s1.incomes.map Income.id).Nodup)
    (hIamt : TwoDp origI.amount) (hIamt' : TwoDp editedI.amount)
    (hE : origE ∈ s2.expenses) (hEid : editedE.id = origE.id)
    (hEn : (s2.expenses.map Expense.id).Nodup)
    (hEamt : TwoDp origE.amount) (hEamt' : TwoDp editedE.amount)
    (hT : origT ∈ s3.transfers) (hTid : editedT.id = origT.id)
    (hTn : (s3.transfers.map Transfer.id).Nodup)
    (hTval : editedT.fromAccountId ≠ editedT.toAccountId ∧ 0 < editedT.amount) :
    (updateIncome s1 editedI).accounts
        = (addIncome (delIncome s1 origI.id) nI tI editedI).accounts
    ∧ (updateExpense s2 editedE).accounts
        = (addExpense (delExpense s2 origE.id) nE tE editedE).accounts
    ∧ (updateTransfer s3 editedT).accounts
        = (addTransfer (delTransfer s3 origT.id) nT tW tD editedT).accounts := by
  refine ⟨?_, ?_, ?_⟩
  · have hfindU : s1.incomes.find? (fun x => x.id == editedI.id) = some origI := by
      rw [hIid]
      exact find?_of_mem_nodup s1.incomes Income.id origI hIn hI
    have hfindD : s1.incomes.find? (fun x => x.id == origI.id) = some origI :=
      find?_of_mem_nodup s1.incomes Income.id origI hIn hI
    have hRHS : (addIncome (delIncome s1 origI.id) nI tI editedI).accounts
        = adjust (adjust s1.accounts origI.accountId (-origI.amount))
            editedI.accountId editedI.amount := by
      simp only [delIncome, hfindD, addIncome]
    by_cases hca : origI.accountId ≠ editedI.accountId
    · simp only [updateIncome, hfindU, if_pos hca, hRHS]
    · push_neg at hca
      have hne' : ¬ (origI.accountId ≠ editedI.accountId) := not_ne_iff.mpr hca
      simp only [updateIncome, hfindU, if_neg hne']
      rw [hRHS, hca, adjust_adjust_same _ _ (twoDp_neg hIamt) hIamt', neg_add_eq_sub]
  · have hfindU : s2.expenses.find? (fun x => x.id == editedE.id) = some origE := by
      rw [hEid]
      exact find?_of_mem_nodup s2.expenses Expense.id origE hEn hE
    have hfindD : s2.expenses.find? (fun x => x.id == origE.id) = some origE :=
      find?_of_mem_nodup s2.expenses Expense.id origE hEn hE
    have hRHS : (addExpense (delExpense s2 origE.id) nE tE editedE).accounts
        = adjust (adjust s2.accounts origE.accountId origE.amount)
            editedE.accountId (-editedE.amount) := by
      simp only [delExpense, hfindD, addExpense]
    by_cases hca : origE.accountId ≠ editedE.accountId
    · simp only [updateExpense, hfindU, if_pos hca, hRHS]
    · push_neg at hca
      have hne' : ¬ (origE.accountId ≠ editedE.accountId) := not_ne_iff.mpr hca
      simp only [updateExpense, hfindU, if_neg hne']
      rw [hRHS, hca, adjust_adjust_same _ _ hEamt (twoDp_neg hEamt')]
      congr 1
      ring
  · have hfindU : s3.transfers.find? (fun x => x.id == editedT.id) = some origT := by
      rw [hTid]
      exact find?_of_mem_nodup s3.transfers Transfer.id origT hTn hT
    have hfindD : s3.transfers.find? (fun x => x.id == origT.id) = some origT :=
      find?_of_mem_nodup s3.transfers Transfer.id origT hTn hT
    have hcond : ¬(editedT.fromAccountId = editedT.toAccountId ∨ editedT.amount ≤ 0) := by
      push_neg
      exact ⟨hTval.1, hTval.2⟩
    simp only [updateTransfer, hfindU, delTransfer, hfindD, addTransfer, if_neg hcond]

theorem update_eq_delete_add_balances_witness :
    (updateIncome s4I ⟨1, ⟨2024, 1, 3⟩, "Job", 150, 0, ""⟩).accounts
        = (addIncome (delIncome s4I 1) 11 12 ⟨1, ⟨2024, 1, 3⟩, "Job", 150, 0, ""⟩).accounts
    ∧ (updateExpense s4E ⟨2, ⟨2024, 1, 3⟩, "Food", 60, false, none, 0, ""⟩).accounts
        = (addExpense (delExpense s4E 2) 13 14 ⟨2, ⟨2024, 1, 3⟩, "Food", 60, false, none, 0, ""⟩).accounts
    ∧ (updateTransfer s4T ⟨3, ⟨2024, 1, 3⟩, 2, 1, 25, ""⟩).accounts
        = (addTransfer (delTransfer s4T 3) 15 16 17 ⟨3, ⟨2024, 1, 3⟩, 2, 1, 25, ""⟩).accounts :=
  update_eq_delete_add_balances s4I s4E s4T
    ⟨1, ⟨2024, 1, 2⟩, "Job", 100, 0, ""⟩ ⟨1, ⟨2024, 1, 3⟩, "Job", 150, 0, ""⟩
    ⟨2, ⟨2024, 1, 2⟩, "Food", 40, false, none, 0, ""⟩
    ⟨2, ⟨2024, 1, 3⟩, "Food", 60, false, none, 0, ""⟩
    ⟨3, ⟨2024, 1, 2⟩, 1, 2, 50, ""⟩ ⟨3, ⟨2024, 1, 3⟩, 2, 1, 25, ""⟩
    11 12 13 14 15 16 17
    (by decide) rfl (by decide) ⟨10000, by norm_num⟩ ⟨15000, by norm_num⟩
    (by decide) rfl (by decide) ⟨4000, by norm_num⟩ ⟨6000, by norm_num⟩
    (by decide) rfl (by decide) ⟨by decide, by norm_num⟩

/-- C4, counterexample: with a negative-amount edited transfer,
`updateTransfer` applies the (invalid) edit while `addTransfer` rejects it
after the delete, so the final balances differ — the claim fails as stated
for transfers. -/
theorem update_transfer_negative_cex :
    (updateTransfer s4T ⟨3, ⟨2024, 1, 2⟩, 1, 2, -10, ""⟩).accounts
      ≠ (addTransfer (delTransfer s4T 3) 9 10 11 ⟨3, ⟨2024, 1, 2⟩, 1, 2, -10, ""⟩).accounts := by
  decide

/- ===========================
   C1 — journal derivability: spec-side step lemmas
=========================== -/

theorem transfersJ_linkedType (trL : List Transfer) :
    ∀ j ∈ transfersJ trL, j.linkedType = LinkedType.Transfer := by
  induction trL with
  | nil => intro j h; cases h
  | cons t ts ih =>
    intro j h
    rcases List.mem_cons.mp h with rfl | h
    · rfl
    rcases List.mem_cons.mp h with rfl | h
    · rfl
    exact ih j h

theorem journal_filter_del_income (s : Store) (i : Id) :
    (journalSpec s).filter (fun j => !(j.linkedType == LinkedType.Income && j.linkedId == i))
      = (s.incomes.filter fun x => x.id != i).map incomeJ ++ s.expenses.map expenseJ
          ++ transfersJ s.transfers := by
  unfold journalSpec
  rw [List.filter_append, List.filter_append]
  congr 1
  · congr 1
    · rw [filterMapComm]
      congr 1
    · apply List.filter_eq_self.mpr
      intro j hj
      obtain ⟨x, _, rfl⟩ := List.mem_map.mp hj
      simp [expenseJ]
  · apply List.filter_eq_self.mpr
    intro j hj
    simp [transfersJ_linkedType s.transfers j hj]

theorem journal_filter_del_expense (s : Store) (i : Id) :
    (journalSpec s).filter (fun j => !(j.linkedType == LinkedType.Expense && j.linkedId == i))
      = s.incomes.map incomeJ ++ (s.expenses.filter fun x => x.id != i).map expenseJ
          ++ transfersJ s.transfers := by
  unfold journalSpec
  rw [List.filter_append, List.filter_append]
  congr 1
  · congr 1
    · apply List.filter_eq_self.mpr
      intro j hj
      obtain ⟨x, _, rfl⟩ := List.mem_map.mp hj
      simp [incomeJ]
    · rw [filterMapComm]
      congr 1
  · apply List.filter_eq_self.mpr
    intro j hj
    simp [transfersJ_linkedType s.transfers j hj]

theorem transfersJ_filter (trL : List Transfer) (i : Id) :
    (transfersJ trL).filter (fun j => !(j.linkedType == LinkedType.Transfer && j.linkedId == i))
      = transfersJ (trL.filter fun x => x.id != i) := by
  induction trL with
  | nil => rfl
  | cons t ts ih =>
    rw [show transfersJ (t :: ts) = transferWJ t :: transferDJ t :: transfersJ ts from rfl,
      List.filter_cons, List.filter_cons, List.filter_cons]
    by_cases h : t.id = i
    · rw [if_neg (by simp [transferWJ, h]), if_neg (by simp [transferDJ, h]),
        if_neg (by simp [h])]
      exact ih
    · rw [if_pos (by simp [transferWJ, h]), if_pos (by simp [transferDJ, h]),
        if_pos (by simp [h]),
        show transfersJ (t :: ts.filter fun x => x.id != i)
          = transferWJ t :: transferDJ t :: transfersJ (ts.filter fun x => x.id != i) from rfl,
        ih]

theorem journal_filter_del_transfer (s : Store) (i : Id) :
    (journalSpec s).filter (fun j => !(j.linkedType == LinkedType.Transfer && j.linkedId == i))
      = s.incomes.map incomeJ ++ s.expenses.map expenseJ
          ++ transfersJ (s.transfers.filter fun x => x.id != i) := by
  unfold journalSpec
  rw [List.filter_append, List.filter_append]
  congr 1
  · congr 1
    · apply List.filter_eq_self.mpr
      intro j hj
      obtain ⟨x, _, rfl⟩ := List.mem_map.mp hj
      simp [incomeJ]
    · apply List.filter_eq_self.mpr
      intro j hj
      obtain ⟨x, _, rfl⟩ := List.mem_map.mp hj
      simp [expenseJ]
  · exact transfersJ_filter s.transfers i

theorem journal_map_update_income (s : Store) (edited : Income) :
    (journalSpec s).map (gIncome edited)
      = (s.incomes.map fun x => if x.id = edited.id then edited else x).map incomeJ
          ++ s.expenses.map expenseJ ++ transfersJ s.transfers := by
  unfold journalSpec
  rw [List.map_append, List.map_append]
  congr 1
  · congr 1
    · rw [List.map_map, List.map_map]
      refine List.map_congr_left fun x _ => ?_
      simp only [Function.comp_apply]
      by_cases h : x.id = edited.id <;> simp [gIncome, incomeJ, h]
    · apply map_eq_self_of
      intro j hj
      obtain ⟨x, _, rfl⟩ := List.mem_map.mp hj
      simp [gIncome, expenseJ]
  · apply map_eq_self_of
    intro j hj
    simp [gIncome, transfersJ_linkedType s.transfers j hj]

theorem journal_map_update_expense (s : Store) (edited : Expense) :
    (journalSpec s).map (gExpense edited)
      = s.incomes.map incomeJ
          ++ (s.expenses.map fun x => if x.id = edited.id then edited else x).map expenseJ
          ++ transfersJ s.transfers := by
  unfold journalSpec
  rw [List.map_append, List.map_append]
  congr 1
  · congr 1
    · apply map_eq_self_of
      intro j hj
      obtain ⟨x, _, rfl⟩ := List.mem_map.mp hj
      simp [gExpense, incomeJ]
    · rw [List.map_map, List.map_map]
      refine List.map_congr_left fun x _ => ?_
      simp only [Function.comp_apply]
      by_cases h : x.id = edited.id <;> simp [gExpense, expenseJ, h]
  · apply map_eq_self_of
    intro j hj
    simp [gExpense, transfersJ_linkedType s.transfers j hj]

theorem transfersJ_map_update (trL : List Transfer) (edited : Transfer) :
    (transfersJ trL).map (gTransfer edited)
      = transfersJ (trL.map fun t => if t.id = edited.id then edited else t) := by
  induction trL with
  | nil => rfl
  | cons t ts ih =>
    simp only [transfersJ, List.map_cons]
    by_cases h : t.id = edited.id <;>
      simp [gTransfer, transferWJ, transferDJ, h, ih, transfersJ]

theorem journal_map_update_transfer (s : Store) (edited : Transfer) :
    (journalSpec s).map (gTransfer edited)
      = s.incomes.map incomeJ ++ s.expenses.map expenseJ
          ++ transfersJ (s.transfers.map fun t => if t.id = edited.id then edited else t) := by
  unfold journalSpec
  rw [List.map_append, List.map_append]
  congr 1
  · congr 1
    · apply map_eq_self_of
      intro j hj
      obtain ⟨x, _, rfl⟩ := List.mem_map.mp hj
      simp [gTransfer, incomeJ]
    · apply map_eq_self_of
      intro j hj
      obtain ⟨x, _, rfl⟩ := List.mem_map.mp hj
      simp [gTransfer, expenseJ]
  · exact transfersJ_map_update s.transfers edited

/- ===========================
   C1 — journal derivability: invariant preservation
=========================== -/

theorem JInv_addIncome (s : Store) (n1 n2 : Id) (inc : Income) (h : JInv s) :
    JInv (addIncome s n1 n2 inc) := by
  unfold JInv at h ⊢
  simp only [addIncome, journalSpec, List.map_cons, List.cons_append]
  exact h.cons _

theorem perm_cons_into_middle {α : Type} (a : α) (l₁ l₂ l₃ : List α) :
    (a :: ((l₁ ++ l₂) ++ l₃)).Perm ((l₁ ++ a :: l₂) ++ l₃) := by
  rw [List.append_assoc, List.append_assoc, List.cons_append]
  exact List.perm_middle.symm

theorem JInv_addExpense (s : Store) (n1 n2 : Id) (exp : Expense) (h : JInv s) :
    JInv (addExpense s n1 n2 exp) := by
  unfold JInv at h ⊢
  simp only [addExpense, journalSpec, List.map_cons]
  exact (h.cons _).trans (perm_cons_into_middle _ _ _ _)

theorem JInv_delIncome (s : Store) (i : Id) (h : JInv s) : JInv (delIncome s i) := by
  unfold delIncome
  cases hf : s.incomes.find? (fun x => x.id == i) with
  | none => exact h
  | some inc =>
    unfold JInv at h ⊢
    have e1 : ((s.accountTxns.filter fun t =>
          !(t.linkedType == LinkedType.Income && t.linkedId == i)).map strip)
        = (s.accountTxns.map strip).filter
            (fun j => !(j.linkedType == LinkedType.Income && j.linkedId == i)) :=
      (filterMapComm strip
        (fun j => !(j.linkedType == LinkedType.Income && j.linkedId == i)) s.accountTxns).symm
    have e2 := h.filter (fun j => !(j.linkedType == LinkedType.Income && j.linkedId == i))
    rw [journal_filter_del_income s i] at e2
    simp only [journalSpec]
    rw [e1]
    exact e2

theorem JInv_delExpense (s : Store) (i : Id) (h : JInv s) : JInv (delExpense s i) := by
  unfold delExpense
  cases hf : s.expenses.find? (fun x => x.id == i) with
  | none => exact h
  | some exp =>
    unfold JInv at h ⊢
    have e1 : ((s.accountTxns.filter fun t =>
          !(t.linkedType == LinkedType.Expense && t.linkedId == i)).map strip)
        = (s.accountTxns.map strip).filter
            (fun j => !(j.linkedType == LinkedType.Expense && j.linkedId == i)) :=
      (filterMapComm strip
        (fun j => !(j.linkedType == LinkedType.Expense && j.linkedId == i)) s.accountTxns).symm
    have e2 := h.filter (fun j => !(j.linkedType == LinkedType.Expense && j.linkedId == i))
    rw [journal_filter_del_expense s i] at e2
    simp only [journalSpec]
    rw [e1]
    exact e2

theorem JInv_delTransfer (s : Store) (i : Id) (h : JInv s) : JInv (delTransfer s i) := by
  unfold delTransfer
  cases hf : s.transfers.find? (fun x => x.id == i) with
  | none => exact h
  | some tr =>
    unfold JInv at h ⊢
    have e1 : ((s.accountTxns.filter fun t =>
          !(t.linkedType == LinkedType.Transfer && t.linkedId == i)).map strip)
        = (s.accountTxns.map strip).filter
            (fun j => !(j.linkedType == LinkedType.Transfer && j.linkedId == i)) :=
      (filterMapComm strip
        (fun j => !(j.linkedType == LinkedType.Transfer && j.linkedId == i)) s.accountTxns).symm
    have e2 := h.filter (fun j => !(j.linkedType == LinkedType.Transfer && j.linkedId == i))
    rw [journal_filter_del_transfer s i] at e2
    simp only [journalSpec]
    rw [e1]
    exact e2

theorem JInv_updateIncome (s : Store) (edited : Income) (h : JInv s) :
    JInv (updateIncome s edited) := by
  unfold updateIncome
  cases hf : s.incomes.find? (fun x => x.id == edited.id) with
  | none => exact h
  | some orig =>
    unfold JInv at h ⊢
    have e1 : ((s.accountTxns.map fun t =>
          if t.linkedType == LinkedType.Income && t.linkedId == edited.id then
            { t with date := edited.date, accountId := edited.accountId
                     amount := edited.amount, notes := strOr edited.source t.notes }
          else t).map strip)
        = (s.accountTxns.map strip).map (gIncome edited) := by
      rw [List.map_map, List.map_map]
      refine List.map_congr_left fun t _ => ?_
      simp only [Function.comp_apply]
      by_cases hc : (t.linkedType == LinkedType.Income && t.linkedId == edited.id) = true <;>
        simp [gIncome, strip, hc]
    have e2 := h.map (gIncome edited)
    rw [journal_map_update_income s edited] at e2
    simp only [journalSpec]
    rw [e1]
    exact e2

theorem JInv_updateExpense (s : Store) (edited : Expense) (h : JInv s) :
    JInv (updateExpense s edited) := by
  unfold updateExpense
  cases hf : s.expenses.find? (fun x => x.id == edited.id) with
  | none => exact h
  | some orig =>
    unfold JInv at h ⊢
    have e1 : ((s.accountTxns.map fun t =>
          if t.linkedType == LinkedType.Expense && t.linkedId == edited.id then
            { t with date := edited.date, accountId := edited.accountId
                     amount := edited.amount, notes := strOr edited.category t.notes }
          else t).map strip)
        = (s.accountTxns.map strip).map (gExpense edited) := by
      rw [List.map_map, List.map_map]
      refine List.map_congr_left fun t _ => ?_
      simp only [Function.comp_apply]
      by_cases hc : (t.linkedType == LinkedType.Expense && t.linkedId == edited.id) = true <;>
        simp [gExpense, strip, hc]
    have e2 := h.map (gExpense edited)
    rw [journal_map_update_expense s edited] at e2
    simp only [journalSpec]
    rw [e1]
    exact e2

theorem JInv_updateTransfer (s : Store) (edited : Transfer) (h : JInv s) :
    JInv (updateTransfer s edited) := by
  unfold updateTransfer
  cases hf : s.transfers.find? (fun x => x.id == edited.id) with
  | none => exact h
  | some orig =>
    unfold JInv at h ⊢
    have e1 : ((s.accountTxns.map fun t =>
          if t.linkedType == LinkedType.Transfer && t.linkedId == edited.id then
            { t with date := edited.date
                     accountId := if t.txnType == TxnType.Withdrawal then edited.fromAccountId
                                  else edited.toAccountId
                     amount := edited.amount
                     notes := strOr edited.notes
                       (if t.txnType == TxnType.Withdrawal then
                          "Transfer to " ++ strOr (((s.accounts.find? fun a =>
                            a.id == edited.toAccountId).map Account.name).getD "") "To"
                        else
                          "Transfer from " ++ strOr (((s.accounts.find? fun a =>
                            a.id == edited.fromAccountId).map Account.name).getD "") "From")
                     transferFromId := some edited.fromAccountId
                     transferToId := some edited.toAccountId }
          else t).map strip)
        = (s.accountTxns.map strip).map (gTransfer edited) := by
      rw [List.map_map, List.map_map]
      refine List.map_congr_left fun t _ => ?_
      simp only [Function.comp_apply]
      by_cases hc : (t.linkedType == LinkedType.Transfer && t.linkedId == edited.id) = true <;>
        simp [gTransfer, strip, hc]
    have e2 := h.map (gTransfer edited)
    rw [journal_map_update_transfer s edited] at e2
    simp only [journalSpec]
    rw [e1]
    exact e2

theorem JInv_addTransfer (s : Store) (n1 n2 n3 : Id) (tr : Transfer) (h : JInv s) :
    JInv (addTransfer s n1 n2 n3 tr) := by
  unfold addTransfer
  by_cases hc : tr.fromAccountId = tr.toAccountId ∨ tr.amount ≤ 0
  · rw [if_pos hc]
    exact h
  · rw [if_neg hc]
    unfold JInv at h ⊢
    simp only [journalSpec, List.map_cons]
    rw [show transfersJ ({ tr with id := n1 } :: s.transfers)
      = transferWJ { tr with id := n1 } :: transferDJ { tr with id := n1 }
          :: transfersJ s.transfers from rfl]
    have h2 : (transferWJ { tr with id := n1 } :: transferDJ { tr with id := n1 }
          :: ((s.incomes.map incomeJ ++ s.expenses.map expenseJ) ++ transfersJ s.transfers)).Perm
        ((s.incomes.map incomeJ ++ s.expenses.map expenseJ)
          ++ transferWJ { tr with id := n1 } :: transferDJ { tr with id := n1 }
            :: transfersJ s.transfers) :=
      perm_two_middle _ _ _ _
    exact ((h.cons _).cons _).trans h2

/- ===========================
   C1 — transfer validity is invariant
=========================== -/

theorem transfersOk_step (s : Store) (op : Op) (hv : validOp op) (h : transfersOk s) :
    ∀ n, transfersOk (execOp (s, n) op).1 := by
  intro n
  cases op with
  | addIncome inc =>
    simp only [execOp, addIncome]
    exact h
  | updateIncome e =>
    simp only [execOp, updateIncome]
    cases hf : s.incomes.find? (fun x => x.id == e.id) with
    | none => exact h
    | some _ => exact h
  | delIncome i =>
    simp only [execOp, delIncome]
    cases hf : s.incomes.find? (fun x => x.id == i) with
    | none => exact h
    | some _ => exact h
  | addExpense exp =>
    simp only [execOp, addExpense]
    exact h
  | updateExpense e =>
    simp only [execOp, updateExpense]
    cases hf : s.expenses.find? (fun x => x.id == e.id) with
    | none => exact h
    | some _ => exact h
  | delExpense i =>
    simp only [execOp, delExpense]
    cases hf : s.expenses.find? (fun x => x.id == i) with
    | none => exact h
    | some _ => exact h
  | addTransfer tr =>
    simp only [execOp, addTransfer]
    by_cases hc : tr.fromAccountId = tr.toAccountId ∨ tr.amount ≤ 0
    · rw [if_pos hc]
      exact h
    · rw [if_neg hc]
      push_neg at hc
      intro t ht
      rcases List.mem_cons.mp ht with rfl | ht
      · exact hc
      · exact h t ht
  | updateTransfer e =>
    simp only [execOp, updateTransfer]
    cases hf : s.transfers.find? (fun x => x.id == e.id) with
    | none => exact h
    | some orig =>
      intro t ht
      obtain ⟨x, hx, rfl⟩ := List.mem_map.mp ht
      by_cases hxe : x.id = e.id
      · rw [if_pos hxe]
        exact hv
      · rw [if_neg hxe]
        exact h x hx
  | delTransfer i =>
    simp only [execOp, delTransfer]
    cases hf : s.transfers.find? (fun x => x.id == i) with
    | none => exact h
    | some _ =>
      intro t ht
      exact h t (List.mem_filter.mp ht).1

theorem JInv_step (s : Store) (op : Op) (h : JInv s) :
    ∀ n, JInv (execOp (s, n) op).1 := by
  intro n
  cases op with
  | addIncome inc => exact JInv_addIncome s n (n + 1) inc h
  | updateIncome e => exact JInv_updateIncome s e h
  | delIncome i => exact JInv_delIncome s i h
  | addExpense exp => exact JInv_addExpense s n (n + 1) exp h
  | updateExpense e => exact JInv_updateExpense s e h
  | delExpense i => exact JInv_delExpense s i h
  | addTransfer tr => exact JInv_addTransfer s n (n + 1) (n + 2) tr h
  | updateTransfer e => exact JInv_updateTransfer s e h
  | delTransfer i => exact JInv_delTransfer s i h

theorem inv_foldl (ops : List Op) :
    ∀ p : Store × ℕ, (∀ op ∈ ops, validOp op) → transfersOk p.1 → JInv p.1 →
      transfersOk (ops.foldl execOp p).1 ∧ JInv (ops.foldl execOp p).1 := by
  induction ops with
  | nil => exact fun p _ hok hj => ⟨hok, hj⟩
  | cons op t ih =>
    intro p hv hok hj
    rw [List.foldl_cons]
    exact ih (execOp p op) (fun o ho => hv o (List.mem_cons_of_mem op ho))
      (transfersOk_step p.1 op (hv op (List.mem_cons_self op t)) hok p.2)
      (JInv_step p.1 op hj p.2)

theorem inv_execOps (ops : List Op) (hv : ∀ op ∈ ops, validOp op) :
    transfersOk (execOps ops).1 ∧ JInv (execOps ops).1 := by
  refine inv_foldl ops (emptyStore, 1) hv ?_ ?_
  · intro t ht
    cases ht
  · exact List.Perm.refl _

/- ===========================
   C1 — replay and the derivability theorem
=========================== -/

theorem foldr_addIncome_txns (l : List Income) (acc : Store) :
    ((l.foldr (fun i st => addIncome st i.id 0 i) acc).accountTxns).map strip
      = l.map incomeJ ++ acc.accountTxns.map strip := by
  induction l with
  | nil => rfl
  | cons i t ih =>
    simp only [List.foldr_cons, addIncome, List.map_cons, List.cons_append] at ih ⊢
    rw [ih]
    rfl

theorem foldr_addExpense_txns (l : List Expense) (acc : Store) :
    ((l.foldr (fun e st => addExpense st e.id 0 e) acc).accountTxns).map strip
      = l.map expenseJ ++ acc.accountTxns.map strip := by
  induction l with
  | nil => rfl
  | cons e t ih =>
    simp only [List.foldr_cons, addExpense, List.map_cons, List.cons_append] at ih ⊢
    rw [ih]
    rfl

theorem foldr_addTransfer_txns (l : List Transfer) (acc : Store)
    (hv : ∀ t ∈ l, t.fromAccountId ≠ t.toAccountId ∧ 0 < t.amount) :
    ((l.foldr (fun t st => addTransfer st t.id 0 0 t) acc).accountTxns).map strip
      = transfersJ l ++ acc.accountTxns.map strip := by
  induction l with
  | nil => rfl
  | cons t ts ih =>
    have hcond : ¬(t.fromAccountId = t.toAccountId ∨ t.amount ≤ 0) := by
      push_neg
      exact ⟨(hv t (List.mem_cons_self t ts)).1, (hv t (List.mem_cons_self t ts)).2⟩
    have ih2 := ih fun x hx => hv x (List.mem_cons_of_mem t hx)
    simp only [List.foldr_cons, addTransfer, List.map_cons] at ih2 ⊢
    rw [if_neg hcond]
    simp only [List.map_cons]
    rw [ih2]
    rfl

/-- Replaying the surviving records from the empty store produces exactly the
derived journal (stripped of ids and notes), provided the stored transfers
are valid — which every reachable store's are. -/
theorem replay_journal (s : Store) (hok : transfersOk s) :
    ((replay s).accountTxns).map strip
      = transfersJ s.transfers
          ++ (s.expenses.map expenseJ ++ (s.incomes.map incomeJ ++ [])) := by
  unfold replay
  rw [foldr_addTransfer_txns _ _ hok, foldr_addExpense_txns, foldr_addIncome_txns]
  rfl

/-- C1 (amended): after any history of income/expense/transfer mutator calls
whose `updateTransfer` arguments satisfy the transfer validity invariant, the
journal — compared as a set ignoring entry ids AND entry notes — equals the
journal obtained by replaying the surviving records from the empty store. -/
theorem journal_derivable_upto_notes (ops : List Op) (hv : ∀ op ∈ ops, validOp op) :
    ∀ j, j ∈ ((execOps ops).1.accountTxns.map strip)
      ↔ j ∈ (((replay (execOps ops).1).accountTxns).map strip) := by
  obtain ⟨hok, hj⟩ := inv_execOps ops hv
  intro j
  rw [replay_journal _ hok]
  refine List.Perm.mem_iff ?_
  refine hj.trans ?_
  have p1 : (((execOps ops).1.incomes.map incomeJ ++ (execOps ops).1.expenses.map expenseJ)
        ++ transfersJ (execOps ops).1.transfers).Perm
      (transfersJ (execOps ops).1.transfers
        ++ ((execOps ops).1.incomes.map incomeJ ++ (execOps ops).1.expenses.map expenseJ)) :=
    List.perm_append_comm
  have p2 : ((execOps ops).1.incomes.map incomeJ ++ (execOps ops).1.expenses.map expenseJ).Perm
      ((execOps ops).1.expenses.map expenseJ ++ ((execOps ops).1.incomes.map incomeJ ++ [])) := by
    rw [List.append_nil]
    exact List.perm_append_comm
  exact p1.trans (List.Perm.append_left _ p2)


/-- C1, counterexample (claim as stated, ignoring only entry ids): after
`opsC1` the stored journal entry keeps its old notes "Salary" (an empty
edited source falls back to the previous notes), while replaying the final
record yields notes "Income" — the two sets differ. -/
theorem journal_derivability_notes_cex :
    ¬ ∀ j, j ∈ ((execOps opsC1).1.accountTxns.map stripId)
        ↔ j ∈ (((replay (execOps opsC1).1).accountTxns).map stripId) := by
  intro h
  have hmem : (⟨⟨2024, 1, 5⟩, 0, TxnType.Deposit, 100, LinkedType.Income, 1, "Salary",
      none, none⟩ : JEntryN) ∈ ((execOps opsC1).1.accountTxns.map stripId) := by decide
  have := (h _).mp hmem
  revert this
  decide

theorem journal_derivable_upto_notes_witness :
    (∀ op ∈ ([Op.addIncome ⟨0, ⟨2024, 1, 5⟩, "Salary", 100, 0, ""⟩] : List Op), validOp op)
    ∧ ∀ j, j ∈ ((execOps [Op.addIncome ⟨0, ⟨2024, 1, 5⟩, "Salary", 100, 0, ""⟩]).1.accountTxns.map strip)
        ↔ j ∈ (((replay (execOps [Op.addIncome ⟨0, ⟨2024, 1, 5⟩, "Salary", 100, 0, ""⟩]).1).accountTxns).map strip) :=
  ⟨by intro op hop; fin_cases hop; exact trivial,
    journal_derivable_upto_notes [Op.addIncome ⟨0, ⟨2024, 1, 5⟩, "Salary", 100, 0, ""⟩]
      (by intro op hop; fin_cases hop; exact trivial)⟩

/- ===========================
   C9 — goal funding statistics
=========================== -/

/-- C9: the goal statistics compute contributed / remaining / monthsLeft /
requiredMonthly exactly as the spec's formulas state (dividing milliseconds
by `86400000` first and then by `30.4` equals the code's single division),
and the 1200-target goal 182 days (six calendar months, 2024-01-01 to
2024-07-01) out with 200 contributed yields remaining 1000 and
requiredMonthly 166.67. -/
theorem goal_stats_formula :
    (∀ (nowMs : ℚ) (s : Store), projectStats nowMs s = projectStatsSpec nowMs s)
    ∧ projectStats (getTime ⟨2024, 1, 1⟩)
        { emptyStore with
            projects := [⟨3, "Trip", 1200, ⟨2024, 7, 1⟩, ""⟩]
            projectContribs := [⟨4, 3, ⟨2024, 1, 15⟩, 200⟩] }
      = [{ project := ⟨3, "Trip", 1200, ⟨2024, 7, 1⟩, ""⟩, contributed := 200
           remaining := 1000, monthsLeft := 6, requiredMonthly := 16667 / 100 }] := by
  constructor
  · intro nowMs s
    unfold projectStats projectStatsSpec
    refine List.map_congr_left fun p _ => ?_
    have h : (getTime p.targetDate - nowMs) / (1000 * 60 * 60 * 24 * (304 / 10 : ℚ))
        = (getTime p.targetDate - nowMs) / 86400000 / (304 / 10 : ℚ) := by
      rw [div_div]
      norm_num
    rw [h]
  · decide

end Budget
